import Mathlib

/-!
Verification of the roadside-ditch thresholding notebook (01_wbt_eda.ipynb).

The notebook works on single-band rasters read with rasterio.  A raster band is
a 2D grid of floating-point samples with a nodata sentinel; the dynamic
thresholding cells first replace the sentinel by NaN and the numpy nan-aware
reductions then skip those cells.  We embed a band shallowly:

  * a float sample that may be NaN (either a nodata sentinel that was replaced
    by NaN, or a genuinely missing value) is `Option ℚ`, with `none` for NaN;
  * a flattened band (numpy reductions such as nanmean flatten) is
    `List (Option ℚ)`; a 2D band (needed by the local-adaptive cell, which is
    window based) is `List (List (Option ℚ))`;
  * real-valued results that involve square roots or Gaussian weights live in
    `ℝ`; everything that the Python code computes with rational-closed
    operations stays in `ℚ` so it is executable.

Each definition carries a comment naming the notebook line it embeds.
-/

set_option autoImplicit false

namespace WbtEda

/-- Error taxonomy of the specification (section 7). -/
inductive TErr where
  | invalidParameter
  | insufficientData
  | degenerateInput
  | shapeMismatch
  deriving DecidableEq, Repr

/-- Embeds the nodata replacement of the global-statistical cell:
`dfme_data[dfme_data == src.nodata] = np.nan`.  A raw band is a list of float
samples together with an optional nodata sentinel; every cell equal to the
sentinel becomes NaN (`none`), every other cell stays valid. -/
def maskNodata (raw : List ℚ) (nodata : Option ℚ) : List (Option ℚ) :=
  raw.map fun v =>
    match nodata with
    | some nd => if v = nd then none else some v
    | none => some v

/-- Embeds `valid_pixels = dfme_data[~np.isnan(dfme_data)]` of the clustering
cell, and at the same time the subsequence of samples that the numpy
nan-reductions (`np.nanmean`, `np.nanstd`, `np.nanpercentile`) operate on:
the valid (non-NaN) samples in order. -/
def validPixels (data : List (Option ℚ)) : List ℚ :=
  data.filterMap id

/-- Embeds `mean_dfme = np.nanmean(dfme_data)`: the arithmetic mean of the
valid samples; on an all-NaN input numpy emits a warning and returns NaN,
embedded as `none`. -/
def nanmean (data : List (Option ℚ)) : Option ℚ :=
  let v := validPixels data
  if v.isEmpty then none else some (v.sum / v.length)

/-- Embeds `std_dfme = np.nanstd(dfme_data)`: the population standard
deviation (`ddof=0`) of the valid samples, i.e. the square root of the mean
squared deviation from the nan-mean; NaN (`none`) on an all-NaN input. -/
noncomputable def nanstd (data : List (Option ℚ)) : Option ℝ :=
  let v := validPixels data
  if v.isEmpty then none
  else
    some (Real.sqrt
      (((v.map fun x => ((x : ℝ) - (v.sum : ℝ) / (v.length : ℝ)) ^ 2).sum) /
        (v.length : ℝ)))

/-- Embeds `dynamic_threshold = mean_dfme - 1.5 * std_dfme` of the
global-statistical cell, with the hard-coded factor 1.5 generalized to the
caller-supplied `k` (the code comments the factor with: adjust as needed).
NaN propagates: if mean or std is NaN the threshold is NaN. -/
noncomputable def dynamic_threshold (data : List (Option ℚ)) (k : ℝ) :
    Option ℝ :=
  match nanmean data, nanstd data with
  | some m, some s => some ((m : ℝ) - k * s)
  | _, _ => none

/-- Mean of a list of valid samples, written directly as the specification
states it (sum over count). -/
def validMean (v : List ℚ) : ℚ :=
  v.sum / v.length

/-- Population standard deviation of a list of valid samples, written directly
as the specification states it: square root of the mean squared deviation
from the mean. -/
noncomputable def validStd (v : List ℚ) : ℝ :=
  Real.sqrt (((v.map fun x => ((x : ℝ) - (validMean v : ℝ)) ^ 2).sum) /
    (v.length : ℝ))

theorem validPixels_maskNodata (raw : List ℚ) (nd : ℚ) :
    validPixels (maskNodata raw (some nd)) = raw.filter (· ≠ nd) := by
  induction raw with
  | nil => rfl
  | cons a t ih =>
      by_cases h : a = nd
      · simpa [maskNodata, validPixels, List.filter_cons, h] using ih
      · simpa [maskNodata, validPixels, List.filter_cons, h] using ih

theorem nanmean_eq_validMean (data : List (Option ℚ))
    (h : validPixels data ≠ []) :
    nanmean data = some (validMean (validPixels data)) := by
  simp [nanmean, validMean, List.isEmpty_iff, h]

theorem nanstd_eq_validStd (data : List (Option ℚ))
    (h : validPixels data ≠ []) :
    nanstd data = some (validStd (validPixels data)) := by
  simp [nanstd, validStd, validMean, List.isEmpty_iff, h]

theorem dynamic_threshold_eq (data : List (Option ℚ)) (k : ℝ)
    (h : validPixels data ≠ []) :
    dynamic_threshold data k =
      some ((validMean (validPixels data) : ℝ) -
        k * validStd (validPixels data)) := by
  rw [dynamic_threshold, nanmean_eq_validMean data h, nanstd_eq_validStd data h]

/-- C1: for every raw band with at least one sample different from the nodata
sentinel and every real `k`, the global-statistical cell (nodata replacement,
then `mean_dfme - k * std_dfme`) computes the scalar
`mean - k * (population std)` of the valid samples, and with `k = 0` it
computes exactly the mean of the valid samples. -/
theorem globalStatistical_mean_sub_k_std (raw : List ℚ) (nd : ℚ) (k : ℝ)
    (h : raw.filter (· ≠ nd) ≠ []) :
    dynamic_threshold (maskNodata raw (some nd)) k =
      some ((validMean (raw.filter (· ≠ nd)) : ℝ) -
        k * validStd (raw.filter (· ≠ nd))) ∧
    dynamic_threshold (maskNodata raw (some nd)) 0 =
      some ((validMean (raw.filter (· ≠ nd)) : ℝ)) := by
  have hv : validPixels (maskNodata raw (some nd)) = raw.filter (· ≠ nd) :=
    validPixels_maskNodata raw nd
  have h0 : validPixels (maskNodata raw (some nd)) ≠ [] := by rw [hv]; exact h
  refine ⟨?_, ?_⟩
  · rw [dynamic_threshold_eq _ k h0, hv]
  · rw [dynamic_threshold_eq _ 0 h0, hv]
    simp

/-- Witness for C1 on the concrete raw band [1, 3, -999] with nodata
sentinel -999: the valid samples are [1, 3], with mean 2 and population
standard deviation 1, so the threshold at `k = 2` is 0 and at `k = 0` it is
the mean 2. -/
theorem globalStatistical_mean_sub_k_std_witness :
    [(1 : ℚ), 3, -999].filter (· ≠ (-999 : ℚ)) ≠ [] ∧
      dynamic_threshold (maskNodata [1, 3, -999] (some (-999))) 2 = some 0 ∧
      dynamic_threshold (maskNodata [1, 3, -999] (some (-999))) 0 = some 2 := by
  have hf : [(1 : ℚ), 3, -999].filter (· ≠ (-999 : ℚ)) = [1, 3] := by decide
  have h : [(1 : ℚ), 3, -999].filter (· ≠ (-999 : ℚ)) ≠ [] := by
    rw [hf]; exact List.cons_ne_nil _ _
  have hm : validMean [(1 : ℚ), 3] = 2 := by
    norm_num [validMean]
  have hs : validStd [(1 : ℚ), 3] = 1 := by
    rw [validStd, hm]
    have he : (([(1 : ℚ), 3]).map
        fun x => ((x : ℝ) - ((2 : ℚ) : ℝ)) ^ 2).sum /
        (([(1 : ℚ), 3]).length : ℝ) = 1 := by
      norm_num
    rw [he]
    exact Real.sqrt_one
  refine ⟨h, ?_, ?_⟩
  · rw [(globalStatistical_mean_sub_k_std [1, 3, -999] (-999) 2 h).1, hf, hm, hs]
    norm_num
  · rw [(globalStatistical_mean_sub_k_std [1, 3, -999] (-999) 2 h).2, hf, hm]
    norm_num

/-- Embeds one cell of the numpy comparison `dfme_data < t` followed by
`.astype("uint8")`: an IEEE-754 comparison with a NaN operand on either side
is false, so the uint8 cell is 0 whenever the data cell or the threshold is
NaN. -/
noncomputable def nanLtCell (x : Option ℚ) (t : Option ℝ) : ℕ :=
  match x, t with
  | some a, some b => if (a : ℝ) < b then 1 else 0
  | _, _ => 0

/-- Embeds `thresholded_dfme = (dfme_data < dynamic_threshold).astype("uint8")`
for the scalar thresholds of the global-statistical, percentile and
clustering cells, on a flattened band. -/
noncomputable def thresholded_dfme (data : List (Option ℚ)) (t : Option ℝ) :
    List ℕ :=
  data.map fun x => nanLtCell x t

/-- Embeds the per-cell variant
`(dfme_data < adaptive_threshold).astype("uint8")` of the local-adaptive
cell: elementwise comparison of two same-shape 2D arrays. -/
noncomputable def thresholdedGrid (img : List (List (Option ℚ)))
    (t : List (List (Option ℝ))) : List (List ℕ) :=
  List.zipWith (fun row trow => List.zipWith nanLtCell row trow) img t

theorem nanLtCell_none (t : Option ℝ) : nanLtCell none t = 0 := by
  cases t <;> rfl

theorem nanLtCell_nan_threshold (x : Option ℚ) : nanLtCell x none = 0 := by
  cases x <;> rfl

theorem nanLtCell_zero_or_one (x : Option ℚ) (t : Option ℝ) :
    nanLtCell x t = 0 ∨ nanLtCell x t = 1 := by
  cases x with
  | none => exact Or.inl (nanLtCell_none t)
  | some a =>
      cases t with
      | none => exact Or.inl rfl
      | some b =>
          by_cases h : (a : ℝ) < b
          · exact Or.inr (by simp [nanLtCell, h])
          · exact Or.inl (by simp [nanLtCell, h])

theorem thresholded_dfme_getD (data : List (Option ℚ)) (t : Option ℝ)
    (i : ℕ) (hi : i < data.length) :
    (thresholded_dfme data t).getD i 0 = nanLtCell (data.getD i none) t := by
  rw [thresholded_dfme,
    List.getD_eq_getElem _ _ (by simpa using hi),
    List.getD_eq_getElem _ _ hi, List.getElem_map]

/-- C2 counterexample: on the band [-0.3, NaN] with scalar threshold -0.15
the notebook mask is the uint8 array [1, 0] — the nodata (NaN) cell is
written as the valid value 0, it does not remain nodata (the uint8 output
cannot even represent NaN). -/
theorem maskBuilder_nodata_counterexample :
    thresholded_dfme [some (-(3 / 10) : ℚ), none]
      (some ((-(3 / 20) : ℚ) : ℝ)) = [1, 0] := by
  show [nanLtCell (some (-(3 / 10) : ℚ)) _, nanLtCell none _] = [1, 0]
  rw [nanLtCell_none]
  show [if ((-(3 / 10) : ℚ) : ℝ) < ((-(3 / 20) : ℚ) : ℝ) then 1 else 0, 0]
      = [1, 0]
  rw [if_pos (by push_cast; norm_num)]

/-- C2 amended: for a valid scalar threshold `t`, an output cell is 1 exactly
when the input cell is valid and strictly below `t`, and it is 0 otherwise —
in particular every nodata input cell is written as 0 (the uint8 output
carries no nodata). -/
theorem maskBuilder_cell_characterization (data : List (Option ℚ)) (t : ℝ)
    (i : ℕ) (hi : i < data.length) :
    ((thresholded_dfme data (some t)).getD i 0 = 1 ↔
      ∃ a, data.getD i none = some a ∧ (a : ℝ) < t) ∧
    ((thresholded_dfme data (some t)).getD i 0 = 0 ↔
      ¬∃ a, data.getD i none = some a ∧ (a : ℝ) < t) ∧
    (data.getD i none = none → (thresholded_dfme data (some t)).getD i 0 = 0) := by
  rw [thresholded_dfme_getD data (some t) i hi]
  cases hx : data.getD i none with
  | none =>
      rw [nanLtCell_none]
      refine ⟨⟨fun h => absurd h (by norm_num), fun ⟨a, ha, _⟩ => by
        exact absurd ha (by simp)⟩, ⟨fun _ => ?_, fun _ => rfl⟩, fun _ => rfl⟩
      rintro ⟨a, ha, _⟩
      exact absurd ha (by simp)
  | some a =>
      by_cases h : (a : ℝ) < t
      · refine ⟨⟨fun _ => ⟨a, rfl, h⟩, fun _ => by simp [nanLtCell, h]⟩,
          ⟨fun hz => ?_, fun hn => absurd ⟨a, rfl, h⟩ hn⟩,
          fun hn => by simp at hn⟩
        simp [nanLtCell, h] at hz
      · refine ⟨⟨fun hz => ?_, fun ⟨b, hb, hlt⟩ => ?_⟩,
          ⟨fun _ => ?_, fun _ => by simp [nanLtCell, h]⟩,
          fun hn => by simp at hn⟩
        · simp [nanLtCell, h] at hz
        · obtain rfl : b = a := by simpa using hb.symm
          exact absurd hlt h
        · rintro ⟨b, hb, hlt⟩
          obtain rfl : b = a := by simpa using hb.symm
          exact absurd hlt h

/-- Witness for the amended C2 on the band [0, NaN] with threshold 1: the
valid cell 0 is below 1 so its mask cell is 1, and the NaN cell is written
as 0. -/
theorem maskBuilder_cell_characterization_witness :
    (thresholded_dfme [some (0 : ℚ), none] (some (1 : ℝ))).getD 0 0 = 1 ∧
    (thresholded_dfme [some (0 : ℚ), none] (some (1 : ℝ))).getD 1 0 = 0 := by
  constructor
  · exact (maskBuilder_cell_characterization [some 0, none] 1 0
      (by norm_num)).1.mpr ⟨0, rfl, by norm_num⟩
  · exact (maskBuilder_cell_characterization [some 0, none] 1 1
      (by norm_num)).2.2 rfl

theorem zipWith_nanLtCell_mem (row : List (Option ℚ)) (trow : List (Option ℝ))
    (c : ℕ) (hc : c ∈ List.zipWith nanLtCell row trow) : c = 0 ∨ c = 1 := by
  induction row generalizing trow with
  | nil => simp [List.zipWith] at hc
  | cons a r ih =>
      cases trow with
      | nil => simp [List.zipWith] at hc
      | cons b tr =>
          rw [List.zipWith_cons_cons, List.mem_cons] at hc
          rcases hc with h | h
          · exact h ▸ nanLtCell_zero_or_one a b
          · exact ih tr h

theorem mem_thresholdedGrid (img : List (List (Option ℚ)))
    (tg : List (List (Option ℝ))) (row : List ℕ)
    (hrow : row ∈ thresholdedGrid img tg) : ∀ c ∈ row, c = 0 ∨ c = 1 := by
  induction img generalizing tg with
  | nil => simp [thresholdedGrid, List.zipWith] at hrow
  | cons r rs ih =>
      cases tg with
      | nil => simp [thresholdedGrid, List.zipWith] at hrow
      | cons tr trs =>
          rw [thresholdedGrid, List.zipWith_cons_cons, List.mem_cons] at hrow
          rcases hrow with h | h
          · exact fun c hc => zipWith_nanLtCell_mem r tr c (h ▸ hc)
          · exact ih trs h

theorem zipWith_getD {α β γ : Type} (f : α → β → γ) (da : α) (db : β) (dc : γ)
    (l1 : List α) (l2 : List β) (j : ℕ) (h1 : j < l1.length)
    (h2 : j < l2.length) :
    (List.zipWith f l1 l2).getD j dc = f (l1.getD j da) (l2.getD j db) := by
  induction l1 generalizing l2 j with
  | nil => simp at h1
  | cons a t ih =>
      cases l2 with
      | nil => simp at h2
      | cons b s =>
          cases j with
          | zero => rfl
          | succ j2 =>
              simp only [List.zipWith_cons_cons, List.getD_cons_succ]
              exact ih s j2 (by simpa using h1) (by simpa using h2)

theorem thresholdedGrid_getD (img : List (List (Option ℚ)))
    (tg : List (List (Option ℝ))) (i j : ℕ)
    (hi : i < img.length) (hitg : i < tg.length)
    (hj : j < (img.getD i []).length) (hjtg : j < (tg.getD i []).length) :
    ((thresholdedGrid img tg).getD i []).getD j 0 =
      nanLtCell ((img.getD i []).getD j none) ((tg.getD i []).getD j none) := by
  rw [thresholdedGrid, zipWith_getD
    (fun row trow => List.zipWith nanLtCell row trow) [] [] [] img tg i hi hitg]
  exact zipWith_getD nanLtCell none none 0 (img.getD i []) (tg.getD i [])
    j hj hjtg

/-- C10: the mask application step always yields a total grid of uint8 cells
that are exactly 0 or 1 — there is no nodata in the output, and a nodata
(NaN) input cell compares false and is written as 0.  This holds for the
scalar-threshold masks of the global-statistical, percentile and clustering
cells (for any scalar threshold, NaN included) and for the per-cell mask of
the local-adaptive cell (whose threshold grid has the shape of the band). -/
theorem mask_cells_binary_total (data : List (Option ℚ)) (t : Option ℝ)
    (img : List (List (Option ℚ))) (tg : List (List (Option ℝ)))
    (hlen : tg.length = img.length)
    (hwid : ∀ i, i < img.length → (tg.getD i []).length = (img.getD i []).length) :
    (∀ c ∈ thresholded_dfme data t, c = 0 ∨ c = 1) ∧
    (thresholded_dfme data t).length = data.length ∧
    (∀ i, i < data.length → data.getD i none = none →
      (thresholded_dfme data t).getD i 0 = 0) ∧
    (∀ row ∈ thresholdedGrid img tg, ∀ c ∈ row, c = 0 ∨ c = 1) ∧
    (∀ i j, i < img.length → j < (img.getD i []).length →
      (img.getD i []).getD j none = none →
      ((thresholdedGrid img tg).getD i []).getD j 0 = 0) := by
  refine ⟨?_, by simp [thresholded_dfme], ?_, ?_, ?_⟩
  · intro c hc
    rw [thresholded_dfme, List.mem_map] at hc
    obtain ⟨x, _, rfl⟩ := hc
    exact nanLtCell_zero_or_one x t
  · intro i hi hn
    rw [thresholded_dfme_getD data t i hi, hn, nanLtCell_none]
  · exact fun row hrow => mem_thresholdedGrid img tg row hrow
  · intro i j hi hj hn
    rw [thresholdedGrid_getD img tg i j hi (by omega) hj
      (by rw [hwid i hi]; exact hj), hn, nanLtCell_none]

/-- Witness for C10 on the concrete band [0.2, NaN] with the NaN scalar
threshold and the 1x1 grid [[NaN]] with threshold grid [[0]]. -/
theorem mask_cells_binary_total_witness :
    (thresholded_dfme [some (1 / 5 : ℚ), none] none).getD 1 0 = 0 ∧
    ((thresholdedGrid [[none]] [[some (0 : ℝ)]]).getD 0 []).getD 0 0 = 0 := by
  refine ⟨?_, ?_⟩
  · exact (mask_cells_binary_total [some (1 / 5 : ℚ), none] none
      [[none]] [[some (0 : ℝ)]] rfl (fun i hi => by
        have h0 : i = 0 := Nat.lt_one_iff.mp (by simpa using hi)
        subst h0
        rfl)).2.2.1 1 (by norm_num) rfl
  · exact (mask_cells_binary_total [some (1 / 5 : ℚ), none] none
      [[none]] [[some (0 : ℝ)]] rfl (fun i hi => by
        have h0 : i = 0 := Nat.lt_one_iff.mp (by simpa using hi)
        subst h0
        rfl)).2.2.2.2 0 0 (by norm_num) (by norm_num) rfl

/-- Width of a 2D numpy array embedded as a list of rows (the arrays the
Step 5 cell multiplies are rectangular, read from same-extent rasters). -/
def gridWidth (g : List (List ℚ)) : ℕ :=
  (g.headD []).length

/-- Embeds numpy shape broadcasting in one dimension: equal extents combine,
an extent of 1 stretches to the other extent, and anything else is a
broadcast error. -/
def bcastDim (m n : ℕ) : Option ℕ :=
  if m = n then some m
  else if m = 1 then some n
  else if n = 1 then some m
  else none

/-- Broadcast-aware cell lookup: a dimension of extent 1 is always indexed
at 0, as numpy stretches it. -/
def bcastGet (g : List (List ℚ)) (i j : ℕ) : ℚ :=
  (g.getD (if g.length = 1 then 0 else i) []).getD
    (if gridWidth g = 1 then 0 else j) 0

/-- Embeds `final_result = dfme_data * road_data` of the Step 5 cell: plain
numpy elementwise multiplication of two 2D arrays.  The code performs no
explicit shape check; numpy broadcasts mismatched but compatible shapes and
raises only when a dimension pair is incompatible (embedded as `none`). -/
def final_result (dfme_data road_data : List (List ℚ)) :
    Option (List (List ℚ)) :=
  match bcastDim dfme_data.length road_data.length,
      bcastDim (gridWidth dfme_data) (gridWidth road_data) with
  | some h, some w =>
      some ((List.range h).map fun i => (List.range w).map fun j =>
        bcastGet dfme_data i j * bcastGet road_data i j)
  | _, _ => none

/-- A 2D array is rectangular with `h` rows of width `w`. -/
def IsShape (g : List (List ℚ)) (h w : ℕ) : Prop :=
  g.length = h ∧ ∀ row ∈ g, row.length = w

instance (g : List (List ℚ)) (h w : ℕ) : Decidable (IsShape g h w) := by
  unfold IsShape
  infer_instance

/-- C3 counterexample: the 1x1 candidate array [[2]] multiplied by the 2x2
road array [[3,4],[5,6]] has mismatched shapes, yet the Step 5
multiplication does not fail: numpy broadcasting silently yields the 2x2
product [[6,8],[10,12]]. -/
theorem fusion_shape_counterexample :
    final_result [[2]] [[3, 4], [5, 6]] = some [[6, 8], [10, 12]] := by
  norm_num [final_result, bcastDim, gridWidth, bcastGet, List.range_succ]

theorem gridWidth_of_shape (g : List (List ℚ)) (h w : ℕ)
    (hs : IsShape g h w) (hpos : 0 < h) : gridWidth g = w := by
  obtain ⟨hlen, hrow⟩ := hs
  cases g with
  | nil => simp at hlen; omega
  | cons r rs => exact hrow r (List.mem_cons_self r rs)

theorem rangeMap_getD {α : Type} (n : ℕ) (f : ℕ → α) (d : α) (i : ℕ)
    (hi : i < n) : ((List.range n).map f).getD i d = f i := by
  rw [List.getD_eq_getElem _ _ (by simpa using hi), List.getElem_map,
    List.getElem_range]

theorem bcastGet_of_shape (g : List (List ℚ)) (h w : ℕ) (hs : IsShape g h w)
    (i j : ℕ) (hi : i < h) (hj : j < w) :
    bcastGet g i j = (g.getD i []).getD j 0 := by
  obtain ⟨hlen, hrow⟩ := hs
  have hwidth : gridWidth g = w := gridWidth_of_shape g h w ⟨hlen, hrow⟩ (by omega)
  rw [bcastGet, hwidth, hlen]
  have hrow_i : (if h = 1 then 0 else i) = i := by
    by_cases h1 : h = 1
    · subst h1; simp; omega
    · simp [h1]
  have hcol_j : (if w = 1 then 0 else j) = j := by
    by_cases w1 : w = 1
    · subst w1; simp; omega
    · simp [w1]
  rw [hrow_i, hcol_j]

/-- C3 amended: the Step 5 multiplication performs no explicit shape check —
numpy broadcasting silently combines compatible mismatched shapes (see the
counterexample) — but whenever the two arrays do have the same rectangular
shape, the result exists, has that shape, and each output cell is the
arithmetic product of the two input cells (nodata sentinels, if present in
the values, are multiplied like ordinary numbers). -/
theorem fusion_product_same_shape (a b : List (List ℚ)) (h w : ℕ)
    (ha : IsShape a h w) (hb : IsShape b h w) :
    ∃ g, final_result a b = some g ∧ IsShape g h w ∧
      ∀ i j, i < h → j < w →
        (g.getD i []).getD j 0 = (a.getD i []).getD j 0 * (b.getD i []).getD j 0 := by
  refine ⟨(List.range h).map fun i => (List.range w).map fun j =>
    bcastGet a i j * bcastGet b i j, ?_, ⟨by simp, ?_⟩, ?_⟩
  · rw [final_result]
    rcases Nat.eq_zero_or_pos h with h0 | hpos
    · subst h0
      obtain ⟨hal, _⟩ := ha
      obtain ⟨hbl, _⟩ := hb
      have haw : gridWidth a = 0 := by
        cases a with
        | nil => rfl
        | cons r rs => simp at hal
      have hbw : gridWidth b = 0 := by
        cases b with
        | nil => rfl
        | cons r rs => simp at hbl
      rw [hal, hbl, haw, hbw]
      simp [bcastDim]
    · rw [ha.1, hb.1, gridWidth_of_shape a h w ha hpos,
        gridWidth_of_shape b h w hb hpos]
      simp [bcastDim]
  · intro row hrow
    rw [List.mem_map] at hrow
    obtain ⟨x, _, rfl⟩ := hrow
    simp
  · intro i j hi hj
    rw [rangeMap_getD h _ [] i hi, rangeMap_getD w _ 0 j hj,
      bcastGet_of_shape a h w ha i j hi hj,
      bcastGet_of_shape b h w hb i j hi hj]

/-- Witness for the amended C3 on the specification test vector: the
candidate mask [[1,0],[0,1]] fused with the road mask [[1,1],[0,0]] is
defined and its top-left cell is the product 1*1 = 1. -/
theorem fusion_product_same_shape_witness :
    IsShape [[1, 0], [0, 1]] 2 2 ∧
      ∃ g, final_result [[1, 0], [0, 1]] [[1, 1], [0, 0]] = some g ∧
        IsShape g 2 2 ∧
        ∀ i j, i < 2 → j < 2 →
          (g.getD i []).getD j 0 =
            ([[(1 : ℚ), 0], [0, 1]].getD i []).getD j 0 *
              ([[(1 : ℚ), 1], [0, 0]].getD i []).getD j 0 :=
  ⟨by decide, fusion_product_same_shape [[1, 0], [0, 1]] [[1, 1], [0, 0]] 2 2
    (by decide) (by decide)⟩

/-- Ascending sort of the valid samples, shared by the percentile and median
definitions. -/
def sortAsc (v : List ℚ) : List ℚ :=
  v.insertionSort (· ≤ ·)

/-- Embeds the documented linear-interpolation rule of `np.percentile` (the
default interpolation, applied by `np.nanpercentile` to the non-NaN
samples): sort ascending and interpolate between the order statistics
around the fractional rank `p / 100 * (n - 1)`. -/
def percentileInterp (v : List ℚ) (p : ℚ) : ℚ :=
  (sortAsc v).getD (⌊p / 100 * ((v.length : ℚ) - 1)⌋).toNat 0 +
    (p / 100 * ((v.length : ℚ) - 1) -
        ((⌊p / 100 * ((v.length : ℚ) - 1)⌋ : ℤ) : ℚ)) *
      ((sortAsc v).getD (⌈p / 100 * ((v.length : ℚ) - 1)⌉).toNat 0 -
        (sortAsc v).getD (⌊p / 100 * ((v.length : ℚ) - 1)⌋).toNat 0)

/-- Embeds `dynamic_threshold = np.nanpercentile(dfme_data, percentile_cutoff)`
of the percentile cell: the p-th percentile of the valid samples, NaN
(`none`) when there are none. -/
def nanpercentile (data : List (Option ℚ)) (p : ℚ) : Option ℚ :=
  let v := validPixels data
  if v.isEmpty then none else some (percentileInterp v p)

/-- Statistical median, written directly as the specification states it:
middle element of the ascending sort for odd length, average of the two
middle elements for even length. -/
def listMedian (v : List ℚ) : ℚ :=
  if (sortAsc v).length % 2 = 1 then (sortAsc v).getD ((sortAsc v).length / 2) 0
  else ((sortAsc v).getD ((sortAsc v).length / 2 - 1) 0 +
    (sortAsc v).getD ((sortAsc v).length / 2) 0) / 2

theorem sortAsc_length (v : List ℚ) : (sortAsc v).length = v.length :=
  (List.perm_insertionSort (· ≤ ·) v).length_eq

/-- C6: for every band with a non-empty valid view and every percentile
`0 < p < 100`, the percentile cell returns the linear-interpolation
percentile of the valid samples, and at `p = 50` it returns exactly the
statistical median of the valid samples. -/
theorem percentile_interpolation_median (data : List (Option ℚ)) (p : ℚ)
    (h0 : 0 < p) (h100 : p < 100) (h : validPixels data ≠ []) :
    nanpercentile data p = some (percentileInterp (validPixels data) p) ∧
    nanpercentile data 50 = some (listMedian (validPixels data)) := by
  have hne : (validPixels data).isEmpty = false := by
    simp [List.isEmpty_iff, h]
  refine ⟨by rw [nanpercentile]; simp [hne], ?_⟩
  rw [nanpercentile]
  simp only [hne, Bool.false_eq_true, if_false, Option.some.injEq]
  set v := validPixels data with hv
  have hn : 0 < v.length := List.length_pos.mpr h
  rcases Nat.even_or_odd v.length with he | ho
  · -- even length 2*m with m ≥ 1: interpolation lands halfway between the
    -- two middle order statistics
    obtain ⟨m, hm⟩ := he
    have hm1 : 1 ≤ m := by
      rw [hm] at hn
      omega
    have hrank : (50 : ℚ) / 100 * ((v.length : ℚ) - 1) = (m : ℚ) - 1 / 2 := by
      have : (v.length : ℚ) = 2 * (m : ℚ) := by
        rw [hm]; push_cast; ring
      rw [this]; ring
    have hfl : ⌊(m : ℚ) - 1 / 2⌋ = (m : ℤ) - 1 := by
      rw [Int.floor_eq_iff]
      constructor
      · push_cast; linarith
      · push_cast; linarith
    have hcl : ⌈(m : ℚ) - 1 / 2⌉ = (m : ℤ) := by
      rw [Int.ceil_eq_iff]
      constructor
      · push_cast; linarith
      · push_cast; linarith
    have hflN : (((m : ℤ) - 1).toNat) = m - 1 := by omega
    have hclN : ((m : ℤ).toNat) = m := by omega
    rw [percentileInterp, hrank, hfl, hcl, hflN, hclN, listMedian]
    have hsl : (sortAsc v).length = 2 * m := by rw [sortAsc_length, hm]; omega
    rw [if_neg (by rw [hsl]; omega)]
    have hdiv : (sortAsc v).length / 2 = m := by rw [hsl]; omega
    rw [hdiv]
    push_cast
    ring
  · -- odd length 2*m+1: the fractional rank is the integer m and the
    -- interpolation collapses to the middle order statistic
    obtain ⟨m, hm⟩ := ho
    have hrank : (50 : ℚ) / 100 * ((v.length : ℚ) - 1) = (m : ℚ) := by
      have : (v.length : ℚ) = 2 * (m : ℚ) + 1 := by
        rw [hm]; push_cast; ring
      rw [this]; ring
    rw [percentileInterp, hrank, Int.floor_natCast, Int.ceil_natCast,
      Int.toNat_natCast, listMedian]
    have hsl : (sortAsc v).length = 2 * m + 1 := by rw [sortAsc_length, hm]
    rw [if_pos (by rw [hsl]; omega)]
    have hdiv : (sortAsc v).length / 2 = m := by rw [hsl]; omega
    rw [hdiv]
    push_cast
    ring

/-- Witness for C6 on the specification test vector: the valid samples
[1, 2, 3, 4, 5] have nan-percentile 3 at p = 50, the statistical median. -/
theorem percentile_interpolation_median_witness :
    nanpercentile [some 1, some 2, some 3, some 4, some 5] 50 = some 3 := by
  have h := (percentile_interpolation_median
    [some 1, some 2, some 3, some 4, some 5] 30 (by norm_num) (by norm_num)
    (by decide)).2
  rw [h]
  have hs : sortAsc (validPixels [some (1 : ℚ), some 2, some 3, some 4, some 5])
      = [1, 2, 3, 4, 5] := by
    norm_num [sortAsc, validPixels, List.insertionSort, List.orderedInsert]
  norm_num [listMedian, hs]

/-- Linear congruential step, the deterministic pseudo-random source that
models the seeded draw of the k-means initialization (`random_state=42` in
the notebook makes the library's draw reproducible). -/
def lcg (s : ℕ) : ℕ :=
  (1103515245 * s + 12345) % 2 ^ 31

/-- The i-th state of the seeded pseudo-random stream. -/
def lcgStream (seed : ℕ) : ℕ → ℕ
  | 0 => lcg seed
  | n + 1 => lcg (lcgStream seed n)

/-- Modelled from the spec: the k-means initialization as a fixed
pseudo-random draw of `k` samples, reproducible from the seed (the library's
exact seeded draw is internal to sklearn; the spec only requires that it be
deterministic for identical data, cluster count and seed). -/
def kmeansInit (v : List ℚ) (k seed : ℕ) : List ℚ :=
  (List.range k).map fun i => v.getD (lcgStream seed i % v.length) 0

/-- Index of the centroid nearest to the sample `x` (the first wins on
ties): the assignment step of Lloyd's algorithm in one dimension. -/
def nearestIdx (cs : List ℚ) (x : ℚ) : ℕ :=
  (List.range cs.length).foldl
    (fun best i => if |x - cs.getD i 0| < |x - cs.getD best 0| then i else best)
    0

/-- One update step of Lloyd's algorithm: every centroid moves to the mean
of the samples assigned to it; a centroid with no assigned samples keeps
its value. -/
def lloydStep (v : List ℚ) (cs : List ℚ) : List ℚ :=
  (List.range cs.length).map fun j =>
    if (v.filter fun x => nearestIdx cs x = j).isEmpty then cs.getD j 0
    else (v.filter fun x => nearestIdx cs x = j).sum /
      ((v.filter fun x => nearestIdx cs x = j).length : ℚ)

/-- Lloyd iteration with the library's finite iteration cap (sklearn's
default `max_iter=300`), stopping early when the centroids are stable. -/
def lloydIter (v : List ℚ) : ℕ → List ℚ → List ℚ
  | 0, cs => cs
  | n + 1, cs =>
      if lloydStep v cs = cs then cs else lloydIter v n (lloydStep v cs)

/-- Embeds the clustering cell
`kmeans = KMeans(n_clusters=3, random_state=42); kmeans.fit(valid_pixels)`
followed by `dynamic_threshold = min(kmeans.cluster_centers_)[0]`:
one-dimensional k-means (Lloyd's algorithm) over the valid pixels with a
deterministic seeded initialization, returning the smallest centroid.  The
fit validates the sample count first (sklearn rejects an empty array and
requires `n_samples >= n_clusters`), embedded as `insufficientData`. -/
def kmeansThreshold (data : List (Option ℚ)) (nclusters seed : ℕ) :
    Except TErr ℚ :=
  if (validPixels data).length < max nclusters 1 then
    .error .insufficientData
  else
    .ok ((lloydIter (validPixels data) 300
        (kmeansInit (validPixels data) nclusters seed)).foldl min
      ((lloydIter (validPixels data) 300
        (kmeansInit (validPixels data) nclusters seed)).headD 0))

/-- C5: the clustering strategy is deterministic in the seed — two runs on
identical data, cluster count and seed return bit-identical results.  The
embedding is a pure function of `(data, n_clusters, seed)`, mirroring the
notebook's fixed `random_state=42`, so the two runs coincide
definitionally. -/
theorem clustering_deterministic (d1 d2 : List (Option ℚ))
    (n1 n2 s1 s2 : ℕ) (hd : d1 = d2) (hn : n1 = n2) (hs : s1 = s2) :
    kmeansThreshold d1 n1 s1 = kmeansThreshold d2 n2 s2 := by
  subst hd
  subst hn
  subst hs
  rfl

/-- Witness for C5: two runs of the clustering strategy on the concrete band
[0, 10, 1] with 2 clusters and seed 42 agree, and the fit succeeds on that
band (the sample count 3 passes the validation). -/
theorem clustering_deterministic_witness :
    ([some (0 : ℚ), some 10, some 1] = [some (0 : ℚ), some 10, some 1]) ∧
    kmeansThreshold [some (0 : ℚ), some 10, some 1] 2 42 =
      kmeansThreshold [some (0 : ℚ), some 10, some 1] 2 42 ∧
    (kmeansThreshold [some (0 : ℚ), some 10, some 1] 2 42).isOk = true := by
  refine ⟨rfl, clustering_deterministic _ _ _ _ _ _ rfl rfl rfl, ?_⟩
  rw [kmeansThreshold]
  rw [if_neg (by decide)]
  rfl

/-- The two neighborhood weighting methods of `threshold_local` covered by
the specification (the notebook calls the gaussian one). -/
inductive LocalMethod where
  | mean
  | gaussian
  deriving DecidableEq, Repr

/-- In-bounds lookup of a 2D band cell at signed coordinates; out-of-bounds
positions count as invalid, embedding the spec rule that windows are
clipped to the raster (no wraparound, no synthetic padding). -/
def getCell (img : List (List (Option ℚ))) (i j : ℤ) : Option ℚ :=
  if 0 ≤ i ∧ i < (img.length : ℤ) then
    if 0 ≤ j ∧ j < ((img.getD i.toNat []).length : ℤ) then
      (img.getD i.toNat []).getD j.toNat none
    else none
  else none

/-- Signed offsets of a centered square window of odd side `2 * rad + 1`. -/
def windowOffsets (rad : ℕ) : List (ℤ × ℤ) :=
  ((List.range (2 * rad + 1)).map fun a => (a : ℤ) - (rad : ℤ)).flatMap
    fun dr =>
      ((List.range (2 * rad + 1)).map fun a => (a : ℤ) - (rad : ℤ)).map
        fun dc => (dr, dc)

/-- Modelled from the spec (section 4.3): the gaussian method of the library
call `threshold_local` weights a window cell at offset `(dr, dc)` by a 2D
Gaussian kernel sized to the window (`sigma` grows linearly with
`block_size`; skimage uses `sigma = (block_size - 1) / 6`).  Only the
positivity of the weights matters for the claims below. -/
noncomputable def gaussWeight (sigma : ℚ) (dr dc : ℤ) : ℝ :=
  Real.exp (-(((dr : ℝ) ^ 2 + (dc : ℝ) ^ 2) / (2 * (sigma : ℝ) ^ 2)))

/-- Weight of a window cell for each method: constant 1 for `mean`,
the Gaussian kernel for `gaussian`. -/
noncomputable def localWeight (m : LocalMethod) (sigma : ℚ) (dr dc : ℤ) : ℝ :=
  match m with
  | .mean => 1
  | .gaussian => gaussWeight sigma dr dc

/-- Modelled from the spec: the weighted samples of the clipped
`block_size × block_size` window centered at `(r, c)` — one
`(weight, value)` pair per in-bounds valid cell. -/
noncomputable def windowPts (img : List (List (Option ℚ))) (block_size : ℕ)
    (m : LocalMethod) (r c : ℕ) : List (ℝ × ℚ) :=
  (windowOffsets ((block_size - 1) / 2)).filterMap fun d =>
    match getCell img ((r : ℤ) + d.1) ((c : ℤ) + d.2) with
    | some v => some (localWeight m (((block_size : ℚ) - 1) / 6) d.1 d.2, v)
    | none => none

/-- Modelled from the spec: the local threshold at one cell — the weighted
average of the valid window samples, renormalized over the valid cells,
minus `offset`; nodata (`none`) when the window holds no valid cell. -/
noncomputable def localThresholdAt (img : List (List (Option ℚ)))
    (block_size : ℕ) (m : LocalMethod) (offset : ℚ) (r c : ℕ) : Option ℝ :=
  if (windowPts img block_size m r c).isEmpty then none
  else
    some
      (((windowPts img block_size m r c).map fun p => p.1 * (p.2 : ℝ)).sum /
        ((windowPts img block_size m r c).map fun p => p.1).sum - (offset : ℝ))

/-- Modelled from the spec: the full per-cell threshold grid, one local
threshold per input cell (same shape as the band). -/
noncomputable def localThresholdGrid (img : List (List (Option ℚ)))
    (block_size : ℕ) (m : LocalMethod) (offset : ℚ) :
    List (List (Option ℝ)) :=
  (List.range img.length).map fun r =>
    (List.range (img.getD r []).length).map fun c =>
      localThresholdAt img block_size m offset r c

/-- Embeds the local-adaptive cell
`adaptive_threshold = threshold_local(dfme_data, block_size, method='gaussian', offset=0)`
together with the library's parameter validation: skimage raises ValueError
(the spec's InvalidParameter) when `block_size` is even, before computing
anything. -/
noncomputable def threshold_local (img : List (List (Option ℚ)))
    (block_size : ℕ) (m : LocalMethod) (offset : ℚ) :
    Except TErr (List (List (Option ℝ))) :=
  if block_size % 2 = 0 then .error .invalidParameter
  else .ok (localThresholdGrid img block_size m offset)

/-- C7: the local-adaptive strategy fails with InvalidParameter exactly on
even block sizes (in particular block_size = 10 is rejected, see the
witness) and accepts every odd block size. -/
theorem localAdaptive_block_size_parity (img : List (List (Option ℚ)))
    (m : LocalMethod) (offset : ℚ) (block_size : ℕ) :
    (block_size % 2 = 0 →
      threshold_local img block_size m offset = .error .invalidParameter) ∧
    (block_size % 2 = 1 →
      threshold_local img block_size m offset =
        .ok (localThresholdGrid img block_size m offset)) := by
  constructor
  · intro h
    rw [threshold_local, if_pos h]
  · intro h
    rw [threshold_local, if_neg (by omega)]

/-- Witness for C7: block_size = 10 (even) is rejected with
InvalidParameter and the notebook's block_size = 101 (odd) is accepted. -/
theorem localAdaptive_block_size_parity_witness :
    threshold_local [[some 0]] 10 .gaussian 0 = .error .invalidParameter ∧
    threshold_local [[some 0]] 101 .gaussian 0 =
      .ok (localThresholdGrid [[some 0]] 101 .gaussian 0) :=
  ⟨(localAdaptive_block_size_parity [[some 0]] .gaussian 0 10).1 (by norm_num),
    (localAdaptive_block_size_parity [[some 0]] .gaussian 0 101).2 (by norm_num)⟩

theorem localThresholdGrid_getD (img : List (List (Option ℚ)))
    (block_size : ℕ) (m : LocalMethod) (offset : ℚ) (r c : ℕ)
    (hr : r < img.length) (hc : c < (img.getD r []).length) :
    ((localThresholdGrid img block_size m offset).getD r []).getD c none =
      localThresholdAt img block_size m offset r c := by
  rw [localThresholdGrid, rangeMap_getD _ _ _ r hr, rangeMap_getD _ _ _ c hc]

theorem windowOffsets_zero : windowOffsets 0 = [(0, 0)] := by decide

theorem localWeight_pos (m : LocalMethod) (sigma : ℚ) (dr dc : ℤ) :
    0 < localWeight m sigma dr dc := by
  cases m
  · norm_num [localWeight]
  · exact Real.exp_pos _

theorem getCell_natCast (img : List (List (Option ℚ))) (r c : ℕ)
    (hr : r < img.length) (hc : c < (img.getD r []).length) :
    getCell img (r : ℤ) (c : ℤ) = (img.getD r []).getD c none := by
  rw [getCell, if_pos ⟨Int.natCast_nonneg r, by exact_mod_cast hr⟩,
    Int.toNat_natCast, if_pos ⟨Int.natCast_nonneg c, by exact_mod_cast hc⟩,
    Int.toNat_natCast]

theorem windowPts_one (img : List (List (Option ℚ))) (m : LocalMethod)
    (r c : ℕ) (hr : r < img.length) (hc : c < (img.getD r []).length) :
    windowPts img 1 m r c =
      match (img.getD r []).getD c none with
      | some v => [(localWeight m 0 0 0, v)]
      | none => [] := by
  have hrad : (1 - 1) / 2 = 0 := by norm_num
  have hsig : (((1 : ℕ) : ℚ) - 1) / 6 = 0 := by norm_num
  rw [windowPts, hrad, hsig, windowOffsets_zero]
  simp only [List.filterMap_cons, List.filterMap_nil, add_zero,
    getCell_natCast img r c hr hc]
  cases hg : (img.getD r []).getD c none with
  | none => rfl
  | some v => rfl

theorem localThresholdAt_one (img : List (List (Option ℚ)))
    (m : LocalMethod) (offset : ℚ) (r c : ℕ)
    (hr : r < img.length) (hc : c < (img.getD r []).length) :
    localThresholdAt img 1 m offset r c =
      ((img.getD r []).getD c none).map fun v => (v : ℝ) - (offset : ℝ) := by
  rw [localThresholdAt, windowPts_one img m r c hr hc]
  cases hg : (img.getD r []).getD c none with
  | none => simp
  | some v =>
      have hw : localWeight m 0 0 0 ≠ 0 := ne_of_gt (localWeight_pos m 0 0 0)
      simp [Option.map_some, mul_div_cancel_left₀ _ hw]

/-- C8: with block_size = 1 the local-adaptive strategy succeeds and
returns a per-cell grid whose threshold at each valid cell is that cell's
own value minus `offset` (the 1x1 window admits no neighborhood averaging),
and nodata at each nodata cell. -/
theorem localAdaptive_block_one (img : List (List (Option ℚ)))
    (m : LocalMethod) (offset : ℚ) (r c : ℕ)
    (hr : r < img.length) (hc : c < (img.getD r []).length) :
    threshold_local img 1 m offset = .ok (localThresholdGrid img 1 m offset) ∧
    ((localThresholdGrid img 1 m offset).getD r []).getD c none =
      ((img.getD r []).getD c none).map fun v => (v : ℝ) - (offset : ℝ) := by
  refine ⟨by rw [threshold_local, if_neg (by norm_num)], ?_⟩
  rw [localThresholdGrid_getD img 1 m offset r c hr hc,
    localThresholdAt_one img m offset r c hr hc]

/-- Witness for C8 on the concrete band [[2, NaN]] with offset 1: the valid
cell gets threshold 2 - 1 and the nodata cell stays nodata. -/
theorem localAdaptive_block_one_witness :
    ((localThresholdGrid [[some (2 : ℚ), none]] 1 .gaussian 1).getD 0 []).getD
        0 none = some ((2 : ℝ) - 1) ∧
    ((localThresholdGrid [[some (2 : ℚ), none]] 1 .gaussian 1).getD 0 []).getD
        1 none = none := by
  constructor
  · rw [(localAdaptive_block_one [[some (2 : ℚ), none]] .gaussian 1 0 0
      (by norm_num) (by norm_num)).2]
    norm_num
  · rw [(localAdaptive_block_one [[some (2 : ℚ), none]] .gaussian 1 0 1
      (by norm_num) (by norm_num)).2]
    rfl

/-- C4 counterexample: on the all-nodata band [NaN], the global-statistical
cell does not fail with InsufficientData — `np.nanmean`/`np.nanstd` only
warn and return NaN, the threshold is NaN (`none`), and the mask step then
silently completes with the all-zero mask [0]. -/
theorem strategies_empty_counterexample :
    dynamic_threshold [(none : Option ℚ)] (3 / 2) = none ∧
    thresholded_dfme [(none : Option ℚ)]
      (dynamic_threshold [(none : Option ℚ)] (3 / 2)) = [0] := by
  have hm : nanmean [(none : Option ℚ)] = none := rfl
  have ht : dynamic_threshold [(none : Option ℚ)] (3 / 2) = none := by
    unfold dynamic_threshold
    rw [hm]
  refine ⟨ht, ?_⟩
  rw [ht]
  rfl

/-- C4 amended: on a band with zero valid samples, the global-statistical
and percentile strategies do not fail — they produce a NaN threshold and
the mask step then silently produces an all-zero mask — and the
local-adaptive strategy succeeds with an all-nodata threshold grid; only
the clustering strategy fails, because the library validates the sample
count before fitting (embedded as InsufficientData). -/
theorem strategies_empty_amended (data : List (Option ℚ))
    (img : List (List (Option ℚ))) (hd : validPixels data = [])
    (him : ∀ row ∈ img, ∀ x ∈ row, x = none)
    (k : ℝ) (p : ℚ) (n seed : ℕ) (bs : ℕ) (hbs : bs % 2 = 1)
    (m : LocalMethod) (offset : ℚ) :
    dynamic_threshold data k = none ∧
    thresholded_dfme data (dynamic_threshold data k) =
      List.replicate data.length 0 ∧
    nanpercentile data p = none ∧
    kmeansThreshold data n seed = .error .insufficientData ∧
    threshold_local img bs m offset =
      .ok (localThresholdGrid img bs m offset) ∧
    ∀ row ∈ localThresholdGrid img bs m offset, ∀ x ∈ row, x = none := by
  have hmean : nanmean data = none := by
    simp [nanmean, hd]
  have ht : dynamic_threshold data k = none := by
    unfold dynamic_threshold
    rw [hmean]
  refine ⟨ht, ?_, ?_, ?_, ?_, ?_⟩
  · rw [ht, List.eq_replicate_iff]
    refine ⟨by simp [thresholded_dfme], ?_⟩
    intro b hb
    rw [thresholded_dfme, List.mem_map] at hb
    obtain ⟨x, _, rfl⟩ := hb
    exact nanLtCell_nan_threshold x
  · simp [nanpercentile, hd]
  · have hvlen : (0 : ℕ) < max n 1 := lt_of_lt_of_le Nat.zero_lt_one
      (le_max_right n 1)
    rw [kmeansThreshold, if_pos (by rw [hd]; exact hvlen)]
  · rw [threshold_local, if_neg (by omega)]
  · have hcell : ∀ i j : ℤ, getCell img i j = none := by
      intro i j
      by_cases hA : 0 ≤ i ∧ i < (img.length : ℤ)
      · rw [getCell, if_pos hA]
        by_cases hB : 0 ≤ j ∧ j < ((img.getD i.toNat []).length : ℤ)
        · rw [if_pos hB]
          have hi : i.toNat < img.length := by omega
          have hj : j.toNat < (img.getD i.toNat []).length := by omega
          have hmem : img.getD i.toNat [] ∈ img := by
            rw [List.getD_eq_getElem img [] hi]
            exact List.getElem_mem hi
          rw [List.getD_eq_getElem _ _ hj]
          exact him _ hmem _ (List.getElem_mem hj)
        · rw [if_neg hB]
      · rw [getCell, if_neg hA]
    have hpts : ∀ r c : ℕ, windowPts img bs m r c = [] := by
      intro r c
      rw [windowPts]
      refine List.filterMap_eq_nil_iff.mpr fun d _ => ?_
      rw [hcell]
    intro row hrow x hx
    rw [localThresholdGrid, List.mem_map] at hrow
    obtain ⟨r, _, rfl⟩ := hrow
    rw [List.mem_map] at hx
    obtain ⟨c, _, rfl⟩ := hx
    rw [localThresholdAt, hpts]
    rfl

/-- Witness for the amended C4 on the all-nodata band [NaN] and grid [[NaN]]
with the notebook parameters (k = 1.5, p = 5, 3 clusters, seed 42,
block_size 101): the global-statistical threshold is NaN and the clustering
fit fails on the insufficient sample count. -/
theorem strategies_empty_amended_witness :
    validPixels [(none : Option ℚ)] = [] ∧
    dynamic_threshold [(none : Option ℚ)] (3 / 2) = none ∧
    kmeansThreshold [(none : Option ℚ)] 3 42 = .error .insufficientData := by
  have h := strategies_empty_amended [none] [[none]] rfl
    (by
      intro row hrow x hx
      simp only [List.mem_singleton] at hrow
      subst hrow
      simp only [List.mem_singleton] at hx
      exact hx)
    (3 / 2) 5 3 42 101 (by norm_num) .gaussian 0
  exact ⟨rfl, h.1, h.2.2.2.1⟩

end WbtEda
